import Mathlib

/-!
Verification of the `BookingModal` date-selection widget
(`src/components/BookingModal.tsx`).

Dates are embedded as proleptic-Gregorian rata-die day numbers
(`Int`, day 1 = 0001-01-01, which is a Monday), so that the
date-fns operations used by the component (`addDays`, `differenceInDays`,
`startOfWeek`, `endOfWeek`, `startOfMonth`, `endOfMonth`, `isBefore`,
`isWithinInterval`, `getDay`, `format 'yyyy-MM-dd'`) become plain integer
arithmetic plus a civil-calendar conversion.  JavaScript's
`Date.prototype.getDay` (0 = Sunday … 6 = Saturday) corresponds to
`n % 7` (`Int.emod`, always in 0..6) in this numbering.
-/

namespace AlpsConnect

/-- Gregorian leap-year rule. -/
def isLeap (y : Nat) : Bool :=
  (y % 4 == 0 && y % 100 != 0) || y % 400 == 0

/-- Number of days of month `m` (1–12) in year `y`. -/
def daysInMonth (y m : Nat) : Nat :=
  if m = 2 then (if isLeap y then 29 else 28)
  else if m = 4 ∨ m = 6 ∨ m = 9 ∨ m = 11 then 30
  else 31

/-- A civil calendar date (year, month 1–12, day 1–…). -/
structure Date where
  y : Nat
  m : Nat
  d : Nat
deriving DecidableEq, Repr

/-- Days strictly before January 1 of year `y` (proleptic Gregorian). -/
def daysBeforeYear (y : Nat) : Int :=
  let z : Int := (y : Int) - 1
  365 * z + z / 4 - z / 100 + z / 400

/-- Days of year `y` strictly before the first day of month `m`. -/
def daysBeforeMonth (y : Nat) : Nat → Nat
  | 0 => 0
  | 1 => 0
  | m + 2 => daysBeforeMonth y (m + 1) + daysInMonth y (m + 1)

/-- Rata-die day number of a date: day 1 = 0001-01-01 (a Monday). -/
def rataDie (dt : Date) : Int :=
  daysBeforeYear dt.y + (daysBeforeMonth dt.y dt.m : Int) + (dt.d : Int)

/-- JavaScript `getDay`: 0 = Sunday, 1 = Monday, …, 3 = Wednesday, 6 = Saturday. -/
def getDayJS (n : Int) : Int := n % 7

/--
The widget's fixed inputs: `tripStart = parseISO(trip.availableFrom)`,
`tripEnd = parseISO(trip.availableTo)`, `today = startOfDay(new Date())`
(BookingModal.tsx lines 36–38), all as day numbers.
-/
structure Env where
  tripStart : Int
  tripEnd : Int
  today : Int

/--
Availability rule `isDateAvailable` (BookingModal.tsx lines 112–125):
1. `isWithinInterval(date, { start: tripStart, end: tripEnd })`,
2. `isBefore(date, today)` excludes strictly-past dates,
3. `date.getDay() === 3` excludes Wednesdays.
-/
def isDateAvailable (e : Env) (n : Int) : Bool :=
  if ¬ (e.tripStart ≤ n ∧ n ≤ e.tripEnd) then false
  else if n < e.today then false
  else if getDayJS n = 3 then false
  else true

/-- Day number of `startOfWeek(n, { weekStartsOn: 1 })`: the Monday on/before `n`. -/
def startOfWeekN (n : Int) : Int := n - (getDayJS n + 6) % 7

/-- Day number of `endOfWeek(n, { weekStartsOn: 1 })`: the Sunday on/after `n`. -/
def endOfWeekN (n : Int) : Int := n + (6 - (getDayJS n + 6) % 7)

/-- Day number of `startOfMonth(currentMonth)` (BookingModal.tsx lines 72, 162). -/
def monthStartN (cm : Date) : Int := rataDie ⟨cm.y, cm.m, 1⟩

/-- Day number of `endOfMonth(monthStart)` (BookingModal.tsx lines 73, 163). -/
def monthEndN (cm : Date) : Int := rataDie ⟨cm.y, cm.m, daysInMonth cm.y cm.m⟩

/-- First visible day of the calendar grid (`startDate`, line 164). -/
def gridStart (cm : Date) : Int := startOfWeekN (monthStartN cm)

/-- Last visible day of the calendar grid (`endDate`, line 165). -/
def gridEnd (cm : Date) : Int := endOfWeekN (monthEndN cm)

/--
The cell-generation loop of `renderCells` (lines 172–235): while
`day <= endDate`, push seven consecutive day cells and continue.  `fuel`
bounds the number of outer iterations; it is instantiated with the total
day count, which always dominates the week count actually run.
-/
def gridLoop : Nat → Int → Int → List Int
  | 0, _, _ => []
  | fuel + 1, day, endN =>
    if day ≤ endN then
      day :: (day + 1) :: (day + 1 + 1) :: (day + 1 + 1 + 1) :: (day + 1 + 1 + 1 + 1) ::
        (day + 1 + 1 + 1 + 1 + 1) :: (day + 1 + 1 + 1 + 1 + 1 + 1) ::
        gridLoop fuel (day + 1 + 1 + 1 + 1 + 1 + 1 + 1) endN
    else []

/-- Fuel for `gridLoop`: the total number of visible days. -/
def gridFuel (cm : Date) : Nat := (gridEnd cm + 1 - gridStart cm).toNat

/-- The sequence of day cells rendered for `currentMonth` (lines 161–237). -/
def visibleDays (cm : Date) : List Int :=
  gridLoop (gridFuel cm) (gridStart cm) (gridEnd cm)

/-- List of `len` consecutive day numbers starting at `a`. -/
def intRange (a : Int) : Nat → List Int
  | 0 => []
  | len + 1 => a :: intRange (a + 1) len

theorem length_intRange (a : Int) (len : Nat) : (intRange a len).length = len := by
  induction len generalizing a with
  | zero => rfl
  | succ k ih => simp [intRange, ih]

theorem mem_intRange {n : Int} {a : Int} {len : Nat} :
    n ∈ intRange a len ↔ a ≤ n ∧ n < a + len := by
  induction len generalizing a with
  | zero => simp [intRange]
  | succ k ih =>
    simp [intRange, ih]
    constructor
    · rintro (rfl | ⟨h1, h2⟩) <;> omega
    · rintro ⟨h1, h2⟩
      rcases eq_or_lt_of_le h1 with rfl | hlt
      · exact Or.inl rfl
      · right; omega

theorem nodup_intRange (a : Int) (len : Nat) : (intRange a len).Nodup := by
  induction len generalizing a with
  | zero => simp [intRange]
  | succ k ih =>
    simp [intRange]
    refine ⟨fun h => ?_, ih (a + 1)⟩
    have := mem_intRange.mp h
    omega

theorem count_intRange (n a : Int) (len : Nat) :
    (intRange a len).count n = if a ≤ n ∧ n < a + len then 1 else 0 := by
  by_cases h : a ≤ n ∧ n < a + len
  · rw [if_pos h]
    exact List.count_eq_one_of_mem (nodup_intRange a len) (mem_intRange.mpr h)
  · rw [if_neg h]
    exact List.count_eq_zero.mpr (fun hm => h (mem_intRange.mp hm))

theorem intRange_seven (a : Int) (j : Nat) :
    intRange a (j + 7) =
      a :: (a + 1) :: (a + 1 + 1) :: (a + 1 + 1 + 1) :: (a + 1 + 1 + 1 + 1) ::
        (a + 1 + 1 + 1 + 1 + 1) :: (a + 1 + 1 + 1 + 1 + 1 + 1) ::
        intRange (a + 1 + 1 + 1 + 1 + 1 + 1 + 1) j := rfl

theorem gridLoop_eq_intRange (fuel : Nat) :
    ∀ day endN : Int, (endN + 1 - day).toNat ≤ 7 * fuel →
      (endN + 1 - day) % 7 = 0 →
      gridLoop fuel day endN = intRange day (endN + 1 - day).toNat := by
  induction fuel with
  | zero =>
    intro day endN hb _
    have h0 : (endN + 1 - day).toNat = 0 := by omega
    have hlt : ¬ day ≤ endN := by omega
    simp [gridLoop, h0, intRange, hlt]
  | succ k ih =>
    intro day endN hb hmod
    by_cases hle : day ≤ endN
    · have h7 : 7 ≤ endN + 1 - day := by omega
      have hstep : day + 1 + 1 + 1 + 1 + 1 + 1 + 1 = day + 7 := by ring
      have hlen : (endN + 1 - day).toNat = ((endN + 1 - (day + 7)).toNat + 7) := by omega
      have hrec : gridLoop k (day + 7) endN = intRange (day + 7) (endN + 1 - (day + 7)).toNat :=
        ih (day + 7) endN (by omega) (by omega)
      rw [hlen, intRange_seven]
      simp only [gridLoop, if_pos hle, hstep, hrec]
    · have h0 : (endN + 1 - day).toNat = 0 := by omega
      simp [gridLoop, hle, h0, intRange]

theorem visibleDays_eq_intRange (cm : Date) :
    visibleDays cm = intRange (gridStart cm) (gridEnd cm + 1 - gridStart cm).toNat := by
  have hmod : (gridEnd cm + 1 - gridStart cm) % 7 = 0 := by
    unfold gridEnd gridStart endOfWeekN startOfWeekN getDayJS
    omega
  exact gridLoop_eq_intRange (gridFuel cm) (gridStart cm) (gridEnd cm)
    (by unfold gridFuel; omega) hmod

theorem nodup_visibleDays (cm : Date) : (visibleDays cm).Nodup := by
  rw [visibleDays_eq_intRange]
  exact nodup_intRange _ _

theorem mem_visibleDays {cm : Date} {n : Int} :
    n ∈ visibleDays cm ↔ gridStart cm ≤ n ∧ n ≤ gridEnd cm := by
  rw [visibleDays_eq_intRange, mem_intRange]
  have hb : gridStart cm ≤ gridEnd cm + 1 := by
    unfold gridEnd gridStart endOfWeekN startOfWeekN getDayJS
    have hse : monthStartN cm ≤ monthEndN cm := by
      unfold monthStartN monthEndN rataDie
      have h1 : 1 ≤ daysInMonth cm.y cm.m := by
        unfold daysInMonth
        split <;> [split; split] <;> omega
      simp only
      omega
    omega
  omega

theorem one_le_daysInMonth (y m : Nat) : 1 ≤ daysInMonth y m := by
  unfold daysInMonth
  split <;> [split; split] <;> omega

/-- Year search for the civil-date inverse: smallest `y` at or above the
start estimate whose year contains day `n`. -/
def findYear (n : Int) : Nat → Nat → Nat
  | 0, y => y
  | fuel + 1, y => if n ≤ daysBeforeYear (y + 1) then y else findYear n fuel (y + 1)

/-- Month search within year `y` for 1-based day-of-year `doy`. -/
def findMonth (y : Nat) (doy : Int) : Nat → Nat → Nat
  | 0, m => m
  | fuel + 1, m =>
    if 12 ≤ m then m
    else if doy ≤ (daysBeforeMonth y (m + 1) : Int) then m
    else findMonth y doy fuel (m + 1)

/-- Civil date of a rata-die day number (inverse of `rataDie` on valid dates). -/
def fromDayNumber (n : Int) : Date :=
  let y := findYear n (n.toNat + 1) (max 1 (n.toNat / 366))
  let doy := n - daysBeforeYear y
  let m := findMonth y doy 12 1
  ⟨y, m, (doy - (daysBeforeMonth y m : Int)).toNat⟩

/-- Two-digit zero-padded decimal rendering (date-fns `MM` / `dd`). -/
def pad2 (n : Nat) : String := if n < 10 then "0" ++ toString n else toString n

/-- Four-digit zero-padded decimal rendering (date-fns `yyyy`). -/
def pad4 (n : Nat) : String :=
  if n < 10 then "000" ++ toString n
  else if n < 100 then "00" ++ toString n
  else if n < 1000 then "0" ++ toString n
  else toString n

/-- `format(date, 'yyyy-MM-dd')` on a civil date. -/
def formatYMD (dt : Date) : String := pad4 dt.y ++ "-" ++ pad2 dt.m ++ "-" ++ pad2 dt.d

/-- `format(day, 'yyyy-MM-dd')` on a day number (the cache key of a day). -/
def formatN (n : Int) : String := formatYMD (fromDayNumber n)

/-- Modelled from the spec: the per-date forecast record returned by the
external weather service (`src/services/weatherService` is not under `src/`);
spec §3 gives it `weatherCode`, `minTemp`, `maxTemp`. -/
structure WeatherData where
  weatherCode : Nat
  minTemp : Int
  maxTemp : Int
deriving DecidableEq

/-- Candidate days of one prefetch cycle (`loadWeatherForView`, lines 77–88):
the visible days whose `differenceInDays(day, today)` lies in `[0, 13]`. -/
def fetchCandidatesN (e : Env) (cm : Date) : List Int :=
  (visibleDays cm).filter (fun n => decide (0 ≤ n - e.today ∧ n - e.today ≤ 13))

/-- The `daysToFetch` string list accumulated by the loop (lines 78–87):
each qualifying day is pushed as `format(day, 'yyyy-MM-dd')`. -/
def daysToFetch (e : Env) (cm : Date) : List String :=
  (fetchCandidatesN e cm).map formatN

/-- Days of the cycle for which `fetchWeatherForecast` is actually invoked
(line 96–97): candidates whose key is absent from the cache. -/
def fetchedDatesN (cache : String → Option WeatherData) (e : Env) (cm : Date) : List Int :=
  (fetchCandidatesN e cm).filter (fun n => (cache (formatN n)).isNone)

/-- Entries written into the local `newWeatherData` record (lines 94–100):
for each date string, if it is not cached, the fetch result (if any) is
stored under that date's own key.  The fetch oracle is modelled from the
spec: `fetchWeatherForecast` resolves to a forecast or to nothing and fails
silently (spec §6), so it is a function into `Option WeatherData`. -/
def entriesFor (fetch cache : String → Option WeatherData) :
    List String → List (String × WeatherData)
  | [] => []
  | s :: rest =>
    if (cache s).isNone then
      match fetch s with
      | some w => (s, w) :: entriesFor fetch cache rest
      | none => entriesFor fetch cache rest
    else entriesFor fetch cache rest

/-- The `newWeatherData` record of one cycle. -/
def newWeatherData (fetch cache : String → Option WeatherData) (e : Env) (cm : Date) :
    List (String × WeatherData) :=
  entriesFor fetch cache (daysToFetch e cm)

/--
One prefetch cycle (`loadWeatherForView`, lines 71–105): if no visible day is
within the horizon the cycle returns early (line 89); after all fetches
settle, the successes are merged into the cache in one batch
(`setWeatherMap(prev => ({ ...prev, ...newWeatherData }))`, lines 102–104),
skipped when nothing new arrived.
-/
def runCycle (fetch : String → Option WeatherData) (e : Env) (cm : Date)
    (cache : String → Option WeatherData) : String → Option WeatherData :=
  if (daysToFetch e cm).isEmpty then cache
  else if (newWeatherData fetch cache e cm).isEmpty then cache
  else fun k =>
    match (newWeatherData fetch cache e cm).lookup k with
    | some w => some w
    | none => cache k

theorem lookup_entriesFor (fetch cache : String → Option WeatherData)
    (l : List String) (s : String) :
    (entriesFor fetch cache l).lookup s =
      if s ∈ l ∧ (cache s).isNone then fetch s else none := by
  induction l with
  | nil => simp [entriesFor]
  | cons t rest ih =>
    by_cases hct : (cache t).isNone
    · rcases hft : fetch t with _ | w
      · simp only [entriesFor, if_pos hct, hft]
        rw [ih]
        by_cases hst : s = t
        · subst hst
          by_cases hsr : s ∈ rest <;> simp [hsr, hct, hft]
        · simp [hst]
      · simp only [entriesFor, if_pos hct, hft, List.lookup]
        by_cases hst : s = t
        · subst hst
          simp [hct, hft]
        · have : (s == t) = false := by simp [hst]
          rw [this]
          simp only [cond_false]
          rw [ih]
          simp [hst]
    · simp only [entriesFor, if_neg hct]
      rw [ih]
      by_cases hst : s = t
      · subst hst
        simp [hct]
      · simp [hst]

/-- C2: the visible-day sequence of `renderCells` runs consecutively from the
Monday on/before the first day of `currentMonth` to the Sunday on/after its
last day; its length is a multiple of 7, it starts on a Monday, ends on a
Sunday, and contains every day of the target month exactly once. -/
theorem visibleDays_spec (cm : Date) :
    visibleDays cm = intRange (gridStart cm) (gridEnd cm + 1 - gridStart cm).toNat
    ∧ (visibleDays cm).length % 7 = 0
    ∧ getDayJS (gridStart cm) = 1
    ∧ gridStart cm ≤ monthStartN cm ∧ monthStartN cm - gridStart cm ≤ 6
    ∧ getDayJS (gridEnd cm) = 0
    ∧ monthEndN cm ≤ gridEnd cm ∧ gridEnd cm - monthEndN cm ≤ 6
    ∧ ∀ n : Int, monthStartN cm ≤ n → n ≤ monthEndN cm → (visibleDays cm).count n = 1 := by
  have hse : monthStartN cm ≤ monthEndN cm := by
    have h1 := one_le_daysInMonth cm.y cm.m
    unfold monthStartN monthEndN rataDie
    simp only
    omega
  have heq := visibleDays_eq_intRange cm
  have hK : gridStart cm ≤ monthStartN cm ∧ monthStartN cm - gridStart cm ≤ 6
      ∧ monthEndN cm ≤ gridEnd cm ∧ gridEnd cm - monthEndN cm ≤ 6
      ∧ getDayJS (gridStart cm) = 1 ∧ getDayJS (gridEnd cm) = 0
      ∧ (gridEnd cm + 1 - gridStart cm) % 7 = 0 := by
    unfold gridEnd gridStart endOfWeekN startOfWeekN getDayJS
    omega
  refine ⟨heq, ?_, hK.2.2.2.2.1, hK.1, hK.2.1, hK.2.2.2.2.2.1, hK.2.2.1, hK.2.2.2.1, ?_⟩
  · rw [heq, length_intRange]
    omega
  · intro n h1 h2
    rw [heq, count_intRange]
    have hc : gridStart cm ≤ n ∧ n < gridStart cm + ((gridEnd cm + 1 - gridStart cm).toNat : Int) := by
      omega
    rw [if_pos hc]

/-- C2 witness: instantiated at May 2024; in particular 2024-05-10 appears
exactly once among the visible days. -/
theorem visibleDays_spec_witness :
    (visibleDays ⟨2024, 5, 1⟩).count (rataDie ⟨2024, 5, 10⟩) = 1 :=
  (visibleDays_spec ⟨2024, 5, 1⟩).2.2.2.2.2.2.2.2 (rataDie ⟨2024, 5, 10⟩)
    (by decide) (by decide)

theorem runCycle_of_fetch_none (fetch : String → Option WeatherData) (e : Env) (cm : Date)
    (cache : String → Option WeatherData) (s : String) (hf : fetch s = none) :
    runCycle fetch e cm cache s = cache s := by
  unfold runCycle newWeatherData
  by_cases h1 : (daysToFetch e cm).isEmpty
  · rw [if_pos h1]
  · rw [if_neg h1]
    by_cases h2 : (entriesFor fetch cache (daysToFetch e cm)).isEmpty
    · rw [if_pos h2]
    · rw [if_neg h2]
      rw [lookup_entriesFor]
      by_cases h3 : s ∈ daysToFetch e cm ∧ (cache s).isNone
      · rw [if_pos h3, hf]
      · rw [if_neg h3]

theorem runCycle_merge (fetch : String → Option WeatherData) (e : Env) (cm : Date)
    (cache : String → Option WeatherData) (s : String) (w : WeatherData)
    (hmem : s ∈ daysToFetch e cm) (hc : cache s = none) (hf : fetch s = some w) :
    runCycle fetch e cm cache s = some w := by
  have h1 : ¬ (daysToFetch e cm).isEmpty = true := by
    rw [List.isEmpty_iff]
    exact List.ne_nil_of_mem hmem
  have hlook : (entriesFor fetch cache (daysToFetch e cm)).lookup s = some w := by
    rw [lookup_entriesFor, if_pos ⟨hmem, by rw [hc]; rfl⟩, hf]
  have h2 : ¬ (entriesFor fetch cache (daysToFetch e cm)).isEmpty = true := by
    rw [List.isEmpty_iff]
    intro hemp
    rw [hemp] at hlook
    exact Option.noConfusion hlook
  unfold runCycle newWeatherData
  rw [if_neg h1, if_neg h2, hlook]

theorem runCycle_preserves (fetch : String → Option WeatherData) (e : Env) (cm : Date)
    (cache : String → Option WeatherData) (k : String) (v : WeatherData)
    (h : cache k = some v) :
    runCycle fetch e cm cache k = some v := by
  unfold runCycle newWeatherData
  by_cases h1 : (daysToFetch e cm).isEmpty
  · rw [if_pos h1, h]
  · rw [if_neg h1]
    by_cases h2 : (entriesFor fetch cache (daysToFetch e cm)).isEmpty
    · rw [if_pos h2, h]
    · rw [if_neg h2]
      rw [lookup_entriesFor]
      have h3 : ¬ (k ∈ daysToFetch e cm ∧ (cache k).isNone) := by
        rintro ⟨-, hn⟩
        rw [h] at hn
        exact Bool.noConfusion hn
      rw [if_neg h3, h]

/-- C3: in a prefetch cycle, a date whose fetch yields nothing (the fetch
oracle, modelled per spec §6 as failing silently, returns `none`) is simply
left without data — the cache at that key is unchanged — while every sibling
date that fetches successfully is still merged into the cache; no error is
ever produced (the cycle is a total function on caches). -/
theorem fetchFailure_isolated (fetch : String → Option WeatherData) (e : Env) (cm : Date)
    (cache : String → Option WeatherData) :
    (∀ s, fetch s = none → runCycle fetch e cm cache s = cache s)
    ∧ (∀ s w, s ∈ daysToFetch e cm → cache s = none → fetch s = some w →
        runCycle fetch e cm cache s = some w) :=
  ⟨fun s hf => runCycle_of_fetch_none fetch e cm cache s hf,
   fun s w hmem hc hf => runCycle_merge fetch e cm cache s w hmem hc hf⟩

/-- C3 witness: with an oracle that fails for 2024-05-04 but succeeds for
2024-05-10, and an empty cache, the failed date stays absent and the sibling
is merged. -/
theorem fetchFailure_isolated_witness :
    runCycle
        (fun s => if s = formatN (rataDie ⟨2024, 5, 4⟩) then none else some ⟨1, 5, 15⟩)
        ⟨rataDie ⟨2024, 5, 1⟩, rataDie ⟨2024, 9, 30⟩, rataDie ⟨2024, 5, 1⟩⟩ ⟨2024, 5, 1⟩
        (fun _ => none) (formatN (rataDie ⟨2024, 5, 4⟩)) = none
    ∧ runCycle
        (fun s => if s = formatN (rataDie ⟨2024, 5, 4⟩) then none else some ⟨1, 5, 15⟩)
        ⟨rataDie ⟨2024, 5, 1⟩, rataDie ⟨2024, 9, 30⟩, rataDie ⟨2024, 5, 1⟩⟩ ⟨2024, 5, 1⟩
        (fun _ => none) (formatN (rataDie ⟨2024, 5, 10⟩)) = some ⟨1, 5, 15⟩ := by
  constructor
  · exact (fetchFailure_isolated _ _ _ _).1 _ (by rw [if_pos rfl])
  · refine (fetchFailure_isolated _ _ _ _).2 _ _ ?_ rfl ?_
    · exact List.mem_map_of_mem formatN (by decide)
    · rw [if_neg (by decide)]

/-- C4: a visible day is a fetch candidate iff its day-offset from today lies
in `[0, 13]`; hence at most 14 fetches are issued per cycle.  With
today = 2024-05-01 and the May 2024 view, 2024-05-20 (offset 19) is never
fetched for any cache or trip bounds, while 2024-05-10 (offset 9) is fetched
when not cached. -/
theorem fetchHorizon_spec (e : Env) (cm : Date) :
    (∀ n, n ∈ fetchCandidatesN e cm ↔
        (n ∈ visibleDays cm ∧ 0 ≤ n - e.today ∧ n - e.today ≤ 13))
    ∧ (fetchCandidatesN e cm).length ≤ 14
    ∧ (∀ cache, (fetchedDatesN cache e cm).length ≤ 14)
    ∧ (∀ ts te cache,
        rataDie ⟨2024, 5, 20⟩ ∉ fetchedDatesN cache ⟨ts, te, rataDie ⟨2024, 5, 1⟩⟩ ⟨2024, 5, 1⟩)
    ∧ rataDie ⟨2024, 5, 10⟩ ∈
        fetchedDatesN (fun _ => none) ⟨0, 0, rataDie ⟨2024, 5, 1⟩⟩ ⟨2024, 5, 1⟩ := by
  have hiff : ∀ n, n ∈ fetchCandidatesN e cm ↔
      (n ∈ visibleDays cm ∧ 0 ≤ n - e.today ∧ n - e.today ≤ 13) := by
    intro n
    rw [fetchCandidatesN, List.mem_filter, decide_eq_true_iff]
  have hlen : (fetchCandidatesN e cm).length ≤ 14 := by
    have hnd : (fetchCandidatesN e cm).Nodup := (nodup_visibleDays cm).filter _
    have hsub : fetchCandidatesN e cm ⊆ intRange e.today 14 := by
      intro n hn
      have hb := ((hiff n).mp hn).2
      exact mem_intRange.mpr (by omega)
    have := (List.subperm_of_subset hnd hsub).length_le
    rwa [length_intRange] at this
  refine ⟨hiff, hlen, ?_, ?_, ?_⟩
  · intro cache
    exact le_trans (List.length_filter_le _ _) hlen
  · intro ts te cache h
    have h2 : rataDie ⟨2024, 5, 20⟩ ∈
        fetchCandidatesN ⟨ts, te, rataDie ⟨2024, 5, 1⟩⟩ ⟨2024, 5, 1⟩ :=
      (List.mem_filter.mp h).1
    have h3 := (List.mem_filter.mp h2).2
    have h4 : rataDie ⟨2024, 5, 20⟩ - rataDie ⟨2024, 5, 1⟩ ≤ 13 := (of_decide_eq_true h3).2
    exact absurd h4 (by decide)
  · decide

/-- C4 witness: the candidate criterion and per-cycle bound at the concrete
May 2024 view with today = 2024-05-01. -/
theorem fetchHorizon_spec_witness :
    (fetchCandidatesN ⟨0, 0, rataDie ⟨2024, 5, 1⟩⟩ ⟨2024, 5, 1⟩).length ≤ 14
    ∧ rataDie ⟨2024, 5, 10⟩ ∈
        fetchedDatesN (fun _ => none) ⟨0, 0, rataDie ⟨2024, 5, 1⟩⟩ ⟨2024, 5, 1⟩ :=
  ⟨(fetchHorizon_spec ⟨0, 0, rataDie ⟨2024, 5, 1⟩⟩ ⟨2024, 5, 1⟩).2.1,
   (fetchHorizon_spec ⟨0, 0, rataDie ⟨2024, 5, 1⟩⟩ ⟨2024, 5, 1⟩).2.2.2.2⟩

theorem entriesFor_eq_nil (fetch cache : String → Option WeatherData) (l : List String)
    (h : ∀ s ∈ l, (cache s).isNone = false) : entriesFor fetch cache l = [] := by
  induction l with
  | nil => rfl
  | cons t rest ih =>
    have ht := h t (List.mem_cons_self t rest)
    simp only [entriesFor, ht]
    exact ih (fun s hs => h s (List.mem_cons_of_mem t hs))

theorem nodup_fetchedDatesN (cache : String → Option WeatherData) (e : Env) (cm : Date) :
    (fetchedDatesN cache e cm).Nodup :=
  ((nodup_visibleDays cm).filter _).filter _

/-- C8: a date already in the cache is skipped by a prefetch cycle; a date
actually fetched with a successful result is fetched exactly once in that
cycle and zero times in any later cycle (one underlying call across the two
cycles); and a cycle all of whose candidates are cached issues no fetch and
returns the cache unchanged. -/
theorem cacheIdempotent_spec (fetch : String → Option WeatherData) (e e2 : Env)
    (cm cm2 : Date) (cache : String → Option WeatherData) :
    (∀ n, (cache (formatN n)).isSome → n ∉ fetchedDatesN cache e cm)
    ∧ (∀ n w, n ∈ fetchedDatesN cache e cm → fetch (formatN n) = some w →
        (fetchedDatesN cache e cm).count n = 1
        ∧ (fetchedDatesN (runCycle fetch e cm cache) e2 cm2).count n = 0)
    ∧ ((∀ n ∈ fetchCandidatesN e cm, (cache (formatN n)).isSome) →
        fetchedDatesN cache e cm = [] ∧ runCycle fetch e cm cache = cache) := by
  refine ⟨?_, ?_, ?_⟩
  · intro n hs hmem
    have hn := (List.mem_filter.mp hmem).2
    cases hc : cache (formatN n)
    · rw [hc] at hs
      exact Bool.noConfusion hs
    · rw [hc] at hn
      exact Bool.noConfusion hn
  · intro n w hmem hf
    refine ⟨List.count_eq_one_of_mem (nodup_fetchedDatesN cache e cm) hmem, ?_⟩
    rw [List.count_eq_zero]
    intro hmem2
    have hcand : n ∈ fetchCandidatesN e cm := (List.mem_filter.mp hmem).1
    have hc : cache (formatN n) = none := by
      have hn := (List.mem_filter.mp hmem).2
      cases hc : cache (formatN n)
      · rfl
      · rw [hc] at hn
        exact Bool.noConfusion hn
    have hmerged : runCycle fetch e cm cache (formatN n) = some w :=
      runCycle_merge fetch e cm cache (formatN n) w
        (List.mem_map_of_mem formatN hcand) hc hf
    have hn2 := (List.mem_filter.mp hmem2).2
    rw [hmerged] at hn2
    exact Bool.noConfusion hn2
  · intro hall
    have hnone : ∀ n ∈ fetchCandidatesN e cm, ¬ (cache (formatN n)).isNone := by
      intro n hn hcn
      have := hall n hn
      cases hc : cache (formatN n)
      · rw [hc] at this
        exact Bool.noConfusion this
      · rw [hc] at hcn
        exact Bool.noConfusion hcn
    constructor
    · rw [fetchedDatesN, List.filter_eq_nil_iff]
      exact hnone
    · have hents : entriesFor fetch cache (daysToFetch e cm) = [] := by
        refine entriesFor_eq_nil fetch cache _ ?_
        intro s hs
        obtain ⟨n, hn, rfl⟩ := List.mem_map.mp hs
        cases hc : cache (formatN n)
        · exact absurd (by rw [hc]; rfl) (hnone n hn)
        · rfl
      unfold runCycle newWeatherData
      by_cases h1 : (daysToFetch e cm).isEmpty
      · rw [if_pos h1]
      · rw [if_neg h1, hents]
        simp

/-- C8 witness: with an empty cache and an always-successful oracle over the
May 2024 view, 2024-05-10 is fetched exactly once in the first cycle and not
at all in the second; with a fully populated cache no date is fetched and the
cache is returned unchanged. -/
theorem cacheIdempotent_spec_witness :
    ((fetchedDatesN (fun _ => none) ⟨0, 0, rataDie ⟨2024, 5, 1⟩⟩ ⟨2024, 5, 1⟩).count
        (rataDie ⟨2024, 5, 10⟩) = 1
      ∧ (fetchedDatesN
            (runCycle (fun _ => some ⟨1, 5, 15⟩) ⟨0, 0, rataDie ⟨2024, 5, 1⟩⟩ ⟨2024, 5, 1⟩
              (fun _ => none))
            ⟨0, 0, rataDie ⟨2024, 5, 1⟩⟩ ⟨2024, 5, 1⟩).count (rataDie ⟨2024, 5, 10⟩) = 0)
    ∧ (fetchedDatesN (fun _ => some ⟨1, 5, 15⟩) ⟨0, 0, rataDie ⟨2024, 5, 1⟩⟩ ⟨2024, 5, 1⟩ = []
      ∧ runCycle (fun _ => some ⟨2, 0, 9⟩) ⟨0, 0, rataDie ⟨2024, 5, 1⟩⟩ ⟨2024, 5, 1⟩
          (fun _ => some ⟨1, 5, 15⟩) = (fun _ => some ⟨1, 5, 15⟩)) :=
  ⟨(cacheIdempotent_spec (fun _ => some ⟨1, 5, 15⟩) ⟨0, 0, rataDie ⟨2024, 5, 1⟩⟩
      ⟨0, 0, rataDie ⟨2024, 5, 1⟩⟩ ⟨2024, 5, 1⟩ ⟨2024, 5, 1⟩ (fun _ => none)).2.1
    (rataDie ⟨2024, 5, 10⟩) ⟨1, 5, 15⟩ (by decide) rfl,
   (cacheIdempotent_spec (fun _ => some ⟨2, 0, 9⟩) ⟨0, 0, rataDie ⟨2024, 5, 1⟩⟩
      ⟨0, 0, rataDie ⟨2024, 5, 1⟩⟩ ⟨2024, 5, 1⟩ ⟨2024, 5, 1⟩
      (fun _ => some ⟨1, 5, 15⟩)).2.2 (fun _ _ => rfl)⟩

/-- Input of one prefetch cycle over the widget's lifetime: the oracle's
responses for that cycle, the environment, and the viewed month. -/
structure CycleInput where
  fetch : String → Option WeatherData
  env : Env
  month : Date

/-- Sequential composition of the prefetch cycles run during the widget's
lifetime (the only writer of `weatherMap` is the merge in lines 102–104). -/
def runCycles : List CycleInput → (String → Option WeatherData) → String → Option WeatherData
  | [], cache => cache
  | c :: rest, cache => runCycles rest (runCycle c.fetch c.env c.month cache)

/-- C9: the weather cache only grows — a key present before one cycle, or
before any sequence of cycles, is still present afterwards (in fact with the
same value, since a cached key is never refetched and the batch merge only
adds keys that were absent). -/
theorem cacheMonotone_spec (fetch : String → Option WeatherData) (e : Env) (cm : Date)
    (cs : List CycleInput) (cache : String → Option WeatherData) (k : String)
    (v : WeatherData) (h : cache k = some v) :
    runCycle fetch e cm cache k = some v ∧ runCycles cs cache k = some v := by
  refine ⟨runCycle_preserves fetch e cm cache k v h, ?_⟩
  induction cs generalizing cache with
  | nil => exact h
  | cons c rest ih =>
    exact ih (runCycle c.fetch c.env c.month cache) (runCycle_preserves _ _ _ _ k v h)

/-- C9 witness: a cache holding key "2024-05-10" still holds it, with the
same value, after a further cycle over the May 2024 view. -/
theorem cacheMonotone_spec_witness :
    runCycles [⟨fun _ => some ⟨2, 0, 9⟩, ⟨0, 0, rataDie ⟨2024, 5, 1⟩⟩, ⟨2024, 5, 1⟩⟩]
      (fun s => if s = "2024-05-10" then some ⟨1, 5, 15⟩ else none) "2024-05-10" =
      some ⟨1, 5, 15⟩ :=
  (cacheMonotone_spec (fun _ => some ⟨2, 0, 9⟩) ⟨0, 0, rataDie ⟨2024, 5, 1⟩⟩ ⟨2024, 5, 1⟩
    [⟨fun _ => some ⟨2, 0, 9⟩, ⟨0, 0, rataDie ⟨2024, 5, 1⟩⟩, ⟨2024, 5, 1⟩⟩]
    (fun s => if s = "2024-05-10" then some ⟨1, 5, 15⟩ else none) "2024-05-10" ⟨1, 5, 15⟩
    (by simp)).2

/-- C1: `isDateAvailable` returns true iff the date is inside the inclusive
season window, not strictly before today, and not a Wednesday; in particular
it is false outside the window, false for strictly-past dates, and false for
Wednesdays. -/
theorem isDateAvailable_spec (e : Env) (n : Int) :
    (isDateAvailable e n = true ↔
      ((e.tripStart ≤ n ∧ n ≤ e.tripEnd) ∧ ¬ n < e.today ∧ getDayJS n ≠ 3))
    ∧ (¬ (e.tripStart ≤ n ∧ n ≤ e.tripEnd) → isDateAvailable e n = false)
    ∧ (n < e.today → isDateAvailable e n = false)
    ∧ (getDayJS n = 3 → isDateAvailable e n = false) := by
  unfold isDateAvailable
  by_cases h1 : e.tripStart ≤ n ∧ n ≤ e.tripEnd
  · by_cases h2 : n < e.today
    · simp [h1, h2]
    · by_cases h3 : getDayJS n = 3 <;> simp [h1, h2, h3]
  · simp [h1]

/-- C1 witness: with the season 2024-05-01 … 2024-09-30 and today = 2024-05-01,
the theorem applies; at 2024-05-08 (a Wednesday) the third exclusion fires. -/
theorem isDateAvailable_spec_witness :
    isDateAvailable ⟨rataDie ⟨2024, 5, 1⟩, rataDie ⟨2024, 9, 30⟩, rataDie ⟨2024, 5, 1⟩⟩
      (rataDie ⟨2024, 5, 8⟩) = false :=
  (isDateAvailable_spec ⟨rataDie ⟨2024, 5, 1⟩, rataDie ⟨2024, 9, 30⟩, rataDie ⟨2024, 5, 1⟩⟩
    (rataDie ⟨2024, 5, 8⟩)).2.2.2 (by decide)

/-- Mutable view state of the widget: `currentMonth`, `selectedDate`,
`weatherMap` (BookingModal.tsx lines 32–34). -/
structure ModalState where
  currentMonth : Date
  selectedDate : Option Int
  weatherMap : String → Option WeatherData

/-- `handleDateClick` (lines 127–131): select the date iff it is available. -/
def handleDateClick (e : Env) (s : ModalState) (n : Int) : ModalState :=
  if isDateAvailable e n then { s with selectedDate := some n } else s

/-- `addMonths(currentMonth, 1)` (line 142): advance the month by one, the
day-of-month clamped to the target month's length (date-fns semantics). -/
def addMonths1 (dt : Date) : Date :=
  if dt.m = 12 then ⟨dt.y + 1, 1, min dt.d (daysInMonth (dt.y + 1) 1)⟩
  else ⟨dt.y, dt.m + 1, min dt.d (daysInMonth dt.y (dt.m + 1))⟩

/-- `subMonths(currentMonth, 1)` (line 136): go back one month, the
day-of-month clamped to the target month's length (date-fns semantics). -/
def subMonths1 (dt : Date) : Date :=
  if dt.m = 1 then ⟨dt.y - 1, 12, min dt.d (daysInMonth (dt.y - 1) 12)⟩
  else ⟨dt.y, dt.m - 1, min dt.d (daysInMonth dt.y (dt.m - 1))⟩

/-- Click on the previous-month chevron (line 136). -/
def prevMonthClick (s : ModalState) : ModalState :=
  { s with currentMonth := subMonths1 s.currentMonth }

/-- Click on the next-month chevron (line 142). -/
def nextMonthClick (s : ModalState) : ModalState :=
  { s with currentMonth := addMonths1 s.currentMonth }

/-- Linear month counter used to compare months across year boundaries. -/
def monthIndex (dt : Date) : Nat := 12 * dt.y + dt.m

/-- Display locale of the widget (`lang` prop, `'it' | 'en'`). -/
inductive Lang where
  | it
  | en
deriving DecidableEq

/-- Whether the confirm button is disabled (`disabled={!selectedDate}`, line 290). -/
def confirmDisabled (sd : Option Int) : Bool := sd.isNone

/-- Payload handed to `onConfirm` by the confirm button's click handler
(line 291): `selectedDate && onConfirm(format(selectedDate, 'yyyy-MM-dd'))`.
The format string carries no locale option, but the `lang` prop is in scope
in the component, so it is threaded here to state locale-independence. -/
def confirmPayload (l : Lang) (sd : Option Int) : Option String :=
  match l, sd with
  | _, none => none
  | _, some n => some (formatN n)

/-- A callback invocation observable by the widget's caller. -/
inductive CallbackCall where
  | confirmDate (s : String)
  | close
deriving DecidableEq

/-- Callback invocations performed by the confirm button's click handler
(line 291): only `onConfirm` with the formatted date; `onClose` is wired
solely to the header close button (line 251). -/
def confirmClickEffects (sd : Option Int) : List CallbackCall :=
  match sd with
  | none => []
  | some n => [CallbackCall.confirmDate (formatN n)]

/-- Callback invocations of the header close button (line 251). -/
def closeClickEffects : List CallbackCall := [CallbackCall.close]

/-- C5: clicking an unavailable day leaves the state (hence `selectedDate`)
unchanged; clicking an available day replaces `selectedDate` with exactly
that day; consequently a newly set `selectedDate` always satisfies the
availability rule at selection time. -/
theorem handleDateClick_spec (e : Env) (s : ModalState) (n : Int) :
    (isDateAvailable e n = false → handleDateClick e s n = s)
    ∧ (isDateAvailable e n = true →
        handleDateClick e s n = { s with selectedDate := some n })
    ∧ (∀ d, (handleDateClick e s n).selectedDate = some d →
        s.selectedDate = some d ∨ (d = n ∧ isDateAvailable e d = true)) := by
  refine ⟨?_, ?_, ?_⟩
  · intro h
    unfold handleDateClick
    rw [h]
    rfl
  · intro h
    unfold handleDateClick
    rw [h]
    rfl
  · intro d hd
    unfold handleDateClick at hd
    by_cases h : isDateAvailable e n
    · rw [if_pos h] at hd
      have h2 : some n = some d := hd
      injection h2 with h3
      subst h3
      exact Or.inr ⟨rfl, h⟩
    · rw [if_neg h] at hd
      exact Or.inl hd

/-- C5 witness: in the May–September 2024 season with today = 2024-05-01,
clicking 2024-05-08 (a Wednesday, unavailable) is a no-op, and clicking
2024-05-10 (available) selects exactly that day. -/
theorem handleDateClick_spec_witness :
    handleDateClick ⟨rataDie ⟨2024, 5, 1⟩, rataDie ⟨2024, 9, 30⟩, rataDie ⟨2024, 5, 1⟩⟩
        ⟨⟨2024, 5, 1⟩, none, fun _ => none⟩ (rataDie ⟨2024, 5, 8⟩) =
      ⟨⟨2024, 5, 1⟩, none, fun _ => none⟩
    ∧ handleDateClick ⟨rataDie ⟨2024, 5, 1⟩, rataDie ⟨2024, 9, 30⟩, rataDie ⟨2024, 5, 1⟩⟩
        ⟨⟨2024, 5, 1⟩, none, fun _ => none⟩ (rataDie ⟨2024, 5, 10⟩) =
      ⟨⟨2024, 5, 1⟩, some (rataDie ⟨2024, 5, 10⟩), fun _ => none⟩ :=
  ⟨(handleDateClick_spec ⟨rataDie ⟨2024, 5, 1⟩, rataDie ⟨2024, 9, 30⟩, rataDie ⟨2024, 5, 1⟩⟩
      ⟨⟨2024, 5, 1⟩, none, fun _ => none⟩ (rataDie ⟨2024, 5, 8⟩)).1 (by decide),
   (handleDateClick_spec ⟨rataDie ⟨2024, 5, 1⟩, rataDie ⟨2024, 9, 30⟩, rataDie ⟨2024, 5, 1⟩⟩
      ⟨⟨2024, 5, 1⟩, none, fun _ => none⟩ (rataDie ⟨2024, 5, 10⟩)).2.1 (by decide)⟩

/-- C6: the confirm action is disabled without a selection and produces no
payload then; with a selection it emits exactly the selected date formatted
`yyyy-MM-dd` — selecting May 10, 2024 yields the string "2024-05-10" — and
the payload is identical for the `it` and `en` locales. -/
theorem confirmPayload_spec :
    (∀ l, confirmPayload l none = none ∧ confirmDisabled none = true)
    ∧ (∀ l n, confirmPayload l (some n) = some (formatN n)
        ∧ confirmDisabled (some n) = false)
    ∧ (∀ l1 l2 sd, confirmPayload l1 sd = confirmPayload l2 sd)
    ∧ confirmPayload Lang.it (some (rataDie ⟨2024, 5, 10⟩)) = some "2024-05-10"
    ∧ confirmPayload Lang.en (some (rataDie ⟨2024, 5, 10⟩)) = some "2024-05-10" := by
  refine ⟨fun l => ⟨by cases l <;> rfl, rfl⟩, fun l n => ⟨by cases l <;> rfl, rfl⟩,
    fun l1 l2 sd => by cases l1 <;> cases l2 <;> cases sd <;> rfl, by decide, by decide⟩

/-- C7 counterexample: confirming with 2024-05-10 selected invokes only
`onConfirm` with the ISO string — the `onClose` callback is not among the
emitted calls, so confirmation does not signal close. -/
theorem confirmClose_counterexample :
    confirmClickEffects (some (rataDie ⟨2024, 5, 10⟩)) =
      [CallbackCall.confirmDate "2024-05-10"]
    ∧ CallbackCall.close ∉ confirmClickEffects (some (rataDie ⟨2024, 5, 10⟩)) := by
  refine ⟨by decide, ?_⟩
  intro hmem
  have h2 : CallbackCall.close ∈ [CallbackCall.confirmDate (formatN (rataDie ⟨2024, 5, 10⟩))] :=
    hmem
  exact CallbackCall.noConfusion (List.mem_singleton.mp h2)

/-- C7 (amended): triggering confirmation emits exactly the ISO date string
of the selected date through `onConfirm` and does not invoke `onClose`;
the close signal is emitted only by the dedicated close button. -/
theorem confirmEmitsOnly_spec (sd : Option Int) (n : Int) (h : sd = some n) :
    confirmClickEffects sd = [CallbackCall.confirmDate (formatN n)]
    ∧ CallbackCall.close ∉ confirmClickEffects sd
    ∧ CallbackCall.close ∈ closeClickEffects := by
  subst h
  refine ⟨rfl, ?_, List.mem_singleton.mpr rfl⟩
  intro hmem
  exact CallbackCall.noConfusion (List.mem_singleton.mp hmem)

/-- C7 amended-claim witness at a concrete selection. -/
theorem confirmEmitsOnly_spec_witness :
    confirmClickEffects (some (rataDie ⟨2024, 5, 11⟩)) =
      [CallbackCall.confirmDate (formatN (rataDie ⟨2024, 5, 11⟩))]
    ∧ CallbackCall.close ∉ confirmClickEffects (some (rataDie ⟨2024, 5, 11⟩))
    ∧ CallbackCall.close ∈ closeClickEffects :=
  confirmEmitsOnly_spec (some (rataDie ⟨2024, 5, 11⟩)) (rataDie ⟨2024, 5, 11⟩) rfl

/-- C10: the chevron actions shift `currentMonth` by exactly one month
(backwards/forwards, with date-fns day clamping) and leave `selectedDate`
(and the weather cache) untouched. -/
theorem monthNav_spec (s : ModalState) (hm1 : 1 ≤ s.currentMonth.m)
    (hm2 : s.currentMonth.m ≤ 12) (hy : 1 ≤ s.currentMonth.y) :
    monthIndex (nextMonthClick s).currentMonth = monthIndex s.currentMonth + 1
    ∧ monthIndex (prevMonthClick s).currentMonth + 1 = monthIndex s.currentMonth
    ∧ (nextMonthClick s).selectedDate = s.selectedDate
    ∧ (prevMonthClick s).selectedDate = s.selectedDate
    ∧ (nextMonthClick s).weatherMap = s.weatherMap
    ∧ (prevMonthClick s).weatherMap = s.weatherMap := by
  refine ⟨?_, ?_, rfl, rfl, rfl, rfl⟩
  · unfold nextMonthClick addMonths1 monthIndex
    by_cases h12 : s.currentMonth.m = 12
    · rw [if_pos h12]
      simp only []
      omega
    · rw [if_neg h12]
      simp only []
      omega
  · unfold prevMonthClick subMonths1 monthIndex
    by_cases h1 : s.currentMonth.m = 1
    · rw [if_pos h1]
      simp only []
      omega
    · rw [if_neg h1]
      simp only []
      omega

/-- C10 witness: from January 2024 and from December 2024, each chevron moves
by exactly one month (across year boundaries) with `selectedDate` kept. -/
theorem monthNav_spec_witness :
    monthIndex (nextMonthClick ⟨⟨2024, 12, 31⟩, some 5, fun _ => none⟩).currentMonth =
      monthIndex (⟨2024, 12, 31⟩ : Date) + 1
    ∧ monthIndex (prevMonthClick ⟨⟨2024, 1, 31⟩, some 5, fun _ => none⟩).currentMonth + 1 =
      monthIndex (⟨2024, 1, 31⟩ : Date)
    ∧ (prevMonthClick ⟨⟨2024, 1, 31⟩, some 5, fun _ => none⟩).selectedDate = some 5 :=
  ⟨(monthNav_spec ⟨⟨2024, 12, 31⟩, some 5, fun _ => none⟩ (by decide) (by decide) (by decide)).1,
   (monthNav_spec ⟨⟨2024, 1, 31⟩, some 5, fun _ => none⟩ (by decide) (by decide) (by decide)).2.1,
   (monthNav_spec ⟨⟨2024, 1, 31⟩, some 5, fun _ => none⟩ (by decide) (by decide) (by decide)).2.2.2.1⟩

end AlpsConnect
